import Mathlib

/-!
# Verification of the SSE streaming client of `smartCity_front`

This file is a shallow embedding, in Lean 4, of the Server-Sent-Events (SSE)
streaming client found in `src/services/api.ts` of the repository
(`streamChat`, `streamChatPublic`, `authenticatedFetch` and the token-storage
helpers), together with theorems settling the frozen claims about it.

Modelling conventions:
* The HTTP transport, `TextDecoder` byte decoding, `JSON.parse`,
  `String.prototype.trim/slice/split/startsWith`, `setTimeout` and
  `localStorage` are platform built-ins (external collaborators of the code
  under verification).  They are modelled here by small executable Lean
  functions (`jsonParse`, `jsTrim`, `jsSlice`, `splitNl`, `jsStartsWith`, the
  `sched : List Bool` flush schedule, and an explicit `Option String` token
  store) whose behaviour matches the JavaScript semantics on the values the
  protocol exercises.
* A stream's observable behaviour is its ordered trace of callback
  invocations, `List Cb`, with `Cb.token`, `Cb.error` and `Cb.complete`
  mirroring `onToken`, `onError` and `onComplete`.
* JavaScript is single-threaded: the coalescing flush timer scheduled with
  `setTimeout(flush, 30)` can only run while the pump is suspended awaiting
  `reader.read()`.  The boolean list `sched` records, for each read
  suspension, whether the pending timer (if any) fires there; a timer still
  pending when the pump stops fires afterwards (`finalFlush`), since nothing
  ever clears it.
* Caller cancellation can likewise only take effect while the pump is
  suspended in a read; `cancelAt = some k` means the caller's `cancel()` runs
  during the (k+1)-st read, `none` means the caller never cancels.
-/

namespace SmartCityFront

/-! ## Model of JavaScript JSON values and `JSON.parse`

`Json` models the values `JSON.parse` can produce.  Numbers are restricted to
integers: the only numeric field the protocol carries is `conversation_id`,
an integer (spec §3). -/

inductive Json where
  | nullV : Json
  | boolV (b : Bool) : Json
  | numV (n : Int) : Json
  | strV (s : String) : Json
  | arrV (elems : List Json) : Json
  | objV (fields : List (String × Json)) : Json

/-- Property access `j.k` in JavaScript: `undefined` (here `none`) unless the
value is an object with field `k`; on duplicate keys `JSON.parse` keeps the
last one, hence the reversed lookup. -/
def Json.getField : Json → String → Option Json
  | .objV kvs, k => ((kvs.reverse).find? (fun p => p.1 == k)).map (fun p => p.2)
  | _, _ => none

/-- JavaScript truthiness of a possibly-`undefined` value. -/
def jsTruthy : Option Json → Bool
  | none => false
  | some .nullV => false
  | some (.boolV b) => b
  | some (.numV n) => !(n == 0)
  | some (.strV s) => !(s == "")
  | some (.arrV _) => true
  | some (.objV _) => true

/-- Strict equality `v === "s"` of a possibly-`undefined` value with a string
literal. -/
def jsIsStr (v : Option Json) (s : String) : Bool :=
  match v with
  | some (.strV t) => t == s
  | _ => false

/-- Array-element part of JavaScript `Array.prototype.toString` (`null` and
nested containers coerce one level deep; nesting never occurs in this
protocol's payloads). -/
def jsToStringAtom : Json → String
  | .nullV => ""
  | .boolV true => "true"
  | .boolV false => "false"
  | .numV n => toString n
  | .strV s => s
  | .objV _ => "[object Object]"
  | .arrV _ => ""

/-- JavaScript `String(v)` coercion, on the cases the protocol can produce
(token payloads are strings in practice; the other cases follow the common
JavaScript coercions). -/
def jsToString : Json → String
  | .nullV => "null"
  | .boolV true => "true"
  | .boolV false => "false"
  | .numV n => toString n
  | .strV s => s
  | .objV _ => "[object Object]"
  | .arrV xs => String.intercalate "," (xs.map jsToStringAtom)

/-- Optional chaining `v?.k` on a possibly-`undefined` value. -/
def optChainField (v : Option Json) (k : String) : Option Json :=
  match v with
  | none => none
  | some .nullV => none
  | some j => j.getField k

/-- JSON whitespace (also the whitespace `String.prototype.trim` strips on
the ASCII inputs this protocol carries). -/
def isJsWs (c : Char) : Bool := [' ', '\t', '\n', '\r'].contains c

def wsDrop (cs : List Char) : List Char := cs.dropWhile isJsWs

def digitVal (c : Char) : Nat := c.toNat - 48

def pDigits : Nat → List Char → Nat × List Char
  | acc, [] => (acc, [])
  | acc, c :: cs =>
    if c.isDigit then pDigits (10 * acc + digitVal c) cs else (acc, c :: cs)

/-- Expected-literal matcher: consumes `lit` from the front of the input and
returns the rest, or fails. -/
def stripLit : List Char → List Char → Option (List Char)
  | [], cs => some cs
  | _ :: _, [] => none
  | l :: ls, c :: cs => if l == c then stripLit ls cs else none

/-- The JSON string escapes (short forms). -/
def escChar (e : Char) : Option Char :=
  [('"', '"'), ('\\', '\\'), ('/', '/'), ('n', '\n'), ('t', '\t'),
   ('r', '\r'), ('b', '\x08'), ('f', '\x0c')].lookup e

def hexVal (c : Char) : Option Nat :=
  let n := c.toNat
  if 48 ≤ n && n ≤ 57 then some (n - 48)
  else if 97 ≤ n && n ≤ 102 then some (n - 87)
  else if 65 ≤ n && n ≤ 70 then some (n - 55)
  else none

/-- String body scanner of the JSON grammar: input follows the opening
quote, output is the decoded content and the input following the closing
quote. -/
def pStrBody : List Char → Option (List Char × List Char)
  | [] => none
  | '\\' :: 'u' :: h1 :: h2 :: h3 :: h4 :: cs =>
    match hexVal h1, hexVal h2, hexVal h3, hexVal h4 with
    | some a, some b, some c, some d =>
      (pStrBody cs).map
        (fun p => (Char.ofNat (((a * 16 + b) * 16 + c) * 16 + d) :: p.1, p.2))
    | _, _, _, _ => none
  | '\\' :: e :: cs =>
    match escChar e with
    | some c => (pStrBody cs).map (fun p => (c :: p.1, p.2))
    | none => none
  | ['\\'] => none
  | c :: cs =>
    if c == '"' then some ([], cs)
    else if c.toNat < 32 then none
    else (pStrBody cs).map (fun p => (c :: p.1, p.2))

mutual

/-- Recursive-descent value parser of the JSON grammar, fuelled. -/
def pVal : Nat → List Char → Option (Json × List Char)
  | 0, _ => none
  | fuel + 1, input =>
    match wsDrop input with
    | [] => none
    | c :: rest =>
      if c == 'n' then (stripLit ['u', 'l', 'l'] rest).map (fun r => (Json.nullV, r))
      else if c == 't' then
        (stripLit ['r', 'u', 'e'] rest).map (fun r => (Json.boolV true, r))
      else if c == 'f' then
        (stripLit ['a', 'l', 's', 'e'] rest).map (fun r => (Json.boolV false, r))
      else if c == '"' then
        (pStrBody rest).map (fun p => (Json.strV (String.mk p.1), p.2))
      else if c == '{' then pObj fuel rest
      else if c == '[' then pArr fuel rest
      else if c == '-' then
        match rest with
        | d :: _ =>
          if d.isDigit then
            let p := pDigits 0 rest
            some (Json.numV (-(p.1 : Int)), p.2)
          else none
        | [] => none
      else if c.isDigit then
        let p := pDigits 0 (c :: rest)
        some (Json.numV (p.1 : Int), p.2)
      else none

def pObj : Nat → List Char → Option (Json × List Char)
  | 0, _ => none
  | fuel + 1, input =>
    match wsDrop input with
    | '}' :: rest => some (Json.objV [], rest)
    | rest => pMembers fuel rest []

def pMembers : Nat → List Char → List (String × Json) → Option (Json × List Char)
  | 0, _, _ => none
  | fuel + 1, input, acc =>
    match wsDrop input with
    | '"' :: rest =>
      match pStrBody rest with
      | none => none
      | some (key, r1) =>
        match wsDrop r1 with
        | ':' :: r2 =>
          match pVal fuel r2 with
          | none => none
          | some (v, r3) =>
            match wsDrop r3 with
            | ',' :: r4 => pMembers fuel r4 (acc ++ [(String.mk key, v)])
            | '}' :: r4 => some (Json.objV (acc ++ [(String.mk key, v)]), r4)
            | _ => none
        | _ => none
    | _ => none

def pArr : Nat → List Char → Option (Json × List Char)
  | 0, _ => none
  | fuel + 1, input =>
    match wsDrop input with
    | ']' :: rest => some (Json.arrV [], rest)
    | rest => pElems fuel rest []

def pElems : Nat → List Char → List Json → Option (Json × List Char)
  | 0, _, _ => none
  | fuel + 1, input, acc =>
    match pVal fuel input with
    | none => none
    | some (v, r) =>
      match wsDrop r with
      | ',' :: r2 => pElems fuel r2 (acc ++ [v])
      | ']' :: r2 => some (Json.arrV (acc ++ [v]), r2)
      | _ => none

end

/-- Model of the JavaScript builtin `JSON.parse`: `none` models a thrown
`SyntaxError` (the source only ever calls it inside `try`/`catch`). -/
def jsonParse (s : String) : Option Json :=
  match pVal (s.length + 1) s.data with
  | some (v, rest) => if wsDrop rest = [] then some v else none
  | none => none

/-! ## Models of the JavaScript string built-ins used by the pump -/

/-- `String.prototype.trim` (the protocol's inputs only carry ASCII
whitespace). -/
def trimChars (cs : List Char) : List Char :=
  ((cs.dropWhile isJsWs).reverse.dropWhile isJsWs).reverse

def jsTrim (s : String) : String := String.mk (trimChars s.data)

/-- `String.prototype.slice(n)` for a nonnegative index (the source only uses
6 and 7, on ASCII prefixes, where JavaScript's UTF-16 index and the character
index agree). -/
def jsSlice (s : String) (n : Nat) : String := String.mk (s.data.drop n)

def isPrefixOfChars : List Char → List Char → Bool
  | [], _ => true
  | _ :: _, [] => false
  | p :: ps, c :: cs => p == c && isPrefixOfChars ps cs

/-- `String.prototype.startsWith`. -/
def jsStartsWith (s pre : String) : Bool := isPrefixOfChars pre.data s.data

/-- `String.prototype.split('\n')`: always returns at least one piece; the
pieces never contain the separator. -/
def splitNl : List Char → List (List Char)
  | [] => [[]]
  | c :: cs =>
    let r := splitNl cs
    if c == '\n' then [] :: r
    else (c :: r.headD []) :: r.tail

def jsSplitNl (s : String) : List String := (splitNl s.data).map String.mk

/-- One step of the line reassembler, exactly as both pump loops perform it:
`buffer += chunk; const lines = buffer.split('\n'); buffer = lines.pop() || ''`.
Returns the complete lines to process and the new buffer. -/
def splitBufferLines (buffer chunk : String) : List String × String :=
  let lines := jsSplitNl (buffer ++ chunk)
  (lines.dropLast, lines.getLastD "")

/-- Concatenation of a list of text fragments. -/
def stringConcat : List String → String
  | [] => ""
  | f :: fs => f ++ stringConcat fs

/-- Specification-side description of line splitting (§4.2): the complete
(newline-terminated) lines of a text, newline stripped, in order, together
with the remainder after the last newline.  Used as the correctness reference
for the buffer-and-split implementation. -/
def linesAndRest : List Char → List (List Char) × List Char
  | [] => ([], [])
  | c :: cs =>
    let r := linesAndRest cs
    if c == '\n' then (([] : List Char) :: r.1, r.2)
    else
      match r.1 with
      | [] => ([], c :: r.2)
      | l :: ls => ((c :: l) :: ls, r.2)

/-! ## Callback traces and the coalescing pump state -/

/-- One observable callback invocation of a stream. -/
inductive Cb where
  | token (s : String) : Cb
  | error (msg : String) : Cb
  | complete (conversationId : Option Json) : Cb

/-- Terminal callbacks are `onError` and `onComplete`. -/
def Cb.isTerminal : Cb → Bool
  | .token _ => false
  | _ => true

def Cb.isError : Cb → Bool
  | .error _ => true
  | _ => false

def Cb.isComplete : Cb → Bool
  | .complete _ => true
  | _ => false

def tokenText : Cb → String
  | .token s => s
  | _ => ""

/-- Concatenation of all text delivered through `onToken` in a trace. -/
def tokenConcat (tr : List Cb) : String := stringConcat (tr.map tokenText)

/-- The mutable locals of one pump invocation: the line-reassembly `buffer`,
the SSE parser's `currentEvent`, and the coalescer's `visualBuffer` plus
whether a `flushTimeout` is pending. -/
structure PumpState where
  buffer : String
  currentEvent : Option String
  visualBuffer : String
  flushScheduled : Bool

/-- State of the locals at the top of the pump. -/
def initPump : PumpState := ⟨"", none, "", false⟩

/-- The coalescer's `flush`: emit the whole `visualBuffer` as one `onToken`
call if it is non-empty, then clear the timer handle. -/
def flush (st : PumpState) : PumpState × List Cb :=
  if st.visualBuffer = "" then ({ st with flushScheduled := false }, [])
  else ({ st with visualBuffer := "", flushScheduled := false },
        [Cb.token st.visualBuffer])

/-- A pending flush timer firing (or not) while the pump is suspended in a
read. -/
def maybeFlush (st : PumpState) (fires : Bool) : PumpState × List Cb :=
  if fires && st.flushScheduled then flush st else (st, [])

/-- A flush timer still pending when the pump stops fires afterwards: the
source never clears `flushTimeout` on completion, error or cancellation. -/
def finalFlush (st : PumpState) : List Cb :=
  if st.flushScheduled then (flush st).2 else []

/-! ## The event dispatcher

`handleDataAuth` and `handleDataPublic` embed the body of the
`if (dataStr) { ... }` block of the `data:`-line case of `streamChat` and
`streamChatPublic` respectively.  Each returns the updated pump state, the
callbacks invoked, and whether the enclosing async function `return`ed
(terminating all stream processing).  The two differ in exactly one branch:
for a legacy bare-JSON token event, `streamChat` calls `onToken(data.data)`
directly while `streamChatPublic` appends `data.data` to the coalescing
buffer and schedules a flush. -/

def handleDataAuth (st : PumpState) (dataStr : String) :
    PumpState × List Cb × Bool :=
  if st.currentEvent = some "token" then
    ({ st with visualBuffer := st.visualBuffer ++ dataStr,
               flushScheduled := true }, [], false)
  else if st.currentEvent = some "done" then
    match jsonParse dataStr with
    | some d => (st, [Cb.complete (d.getField "conversation_id")], true)
    | none => (st, [Cb.complete none], true)
  else
    match jsonParse dataStr with
    | some d =>
      if jsIsStr (d.getField "event") "token" && jsTruthy (d.getField "data") then
        (st, [Cb.token (jsToString ((d.getField "data").getD Json.nullV))], false)
      else if jsIsStr (d.getField "event") "done" then
        (st, [Cb.complete (optChainField (d.getField "data") "conversation_id")], true)
      else (st, [], false)
    | none =>
      if st.currentEvent = none then
        ({ st with visualBuffer := st.visualBuffer ++ dataStr,
                   flushScheduled := true }, [], false)
      else (st, [], false)

def handleDataPublic (st : PumpState) (dataStr : String) :
    PumpState × List Cb × Bool :=
  if st.currentEvent = some "token" then
    ({ st with visualBuffer := st.visualBuffer ++ dataStr,
               flushScheduled := true }, [], false)
  else if st.currentEvent = some "done" then
    match jsonParse dataStr with
    | some d => (st, [Cb.complete (d.getField "conversation_id")], true)
    | none => (st, [Cb.complete none], true)
  else
    match jsonParse dataStr with
    | some d =>
      if jsIsStr (d.getField "event") "token" && jsTruthy (d.getField "data") then
        let payload := jsToString ((d.getField "data").getD Json.nullV)
        ({ st with visualBuffer := st.visualBuffer ++ payload,
                   flushScheduled := true }, [], false)
      else if jsIsStr (d.getField "event") "done" then
        (st, [Cb.complete (optChainField (d.getField "data") "conversation_id")], true)
      else (st, [], false)
    | none =>
      if st.currentEvent = none then
        ({ st with visualBuffer := st.visualBuffer ++ dataStr,
                   flushScheduled := true }, [], false)
      else (st, [], false)

/-- A line processor: the `for (const line of lines)` body. -/
abbrev LineProc := PumpState → String → PumpState × List Cb × Bool

/-- The `for (const line of lines)` body of `streamChat`. -/
def processLineAuth : LineProc := fun st line =>
  let trimmedLine := jsTrim line
  if trimmedLine = "" then
    if st.currentEvent = some "done" then (st, [Cb.complete none], true)
    else ({ st with currentEvent := none }, [], false)
  else if jsStartsWith trimmedLine "event: " then
    ({ st with currentEvent := some (jsTrim (jsSlice trimmedLine 7)) }, [], false)
  else if jsStartsWith trimmedLine "data: " then
    let dataStr := jsTrim (jsSlice trimmedLine 6)
    if dataStr = "" then (st, [], false)
    else handleDataAuth st dataStr
  else (st, [], false)

/-- The `for (const line of lines)` body of `streamChatPublic`. -/
def processLinePublic : LineProc := fun st line =>
  let trimmedLine := jsTrim line
  if trimmedLine = "" then
    if st.currentEvent = some "done" then (st, [Cb.complete none], true)
    else ({ st with currentEvent := none }, [], false)
  else if jsStartsWith trimmedLine "event: " then
    ({ st with currentEvent := some (jsTrim (jsSlice trimmedLine 7)) }, [], false)
  else if jsStartsWith trimmedLine "data: " then
    let dataStr := jsTrim (jsSlice trimmedLine 6)
    if dataStr = "" then (st, [], false)
    else handleDataPublic st dataStr
  else (st, [], false)

/-- The whole `for (const line of lines)` loop: a `return` from the body
(third component `true`) discards the remaining lines. -/
def processLines (pl : LineProc) : PumpState → List String → PumpState × List Cb × Bool
  | st, [] => (st, [], false)
  | st, l :: rest =>
    match pl st l with
    | (st1, cbs, true) => (st1, cbs, true)
    | (st1, cbs, false) =>
      match processLines pl st1 rest with
      | (st2, cbs2, stop) => (st2, cbs ++ cbs2, stop)

/-! ## The read loop -/

/-- How the transport ends the sequence of reads: a clean end of data
(`reader.read()` resolving with `done: true`) or a mid-stream transport
failure (the read rejecting). -/
inductive ReadEnd where
  | eof : ReadEnd
  | fail (msg : String) : ReadEnd

def cancelDec : Option Nat → Option Nat
  | none => none
  | some n => some (n - 1)

/-- The `while (!aborted)` read loop shared by both stream functions,
parameterised by the line processor.  `chunks` are the decoded texts of the
successive reads, `ending` is how the read sequence ends, `sched` says for
each read suspension whether a pending coalescing flush fires there, and
`cancelAt = some k` makes the caller's `cancel()` run during the (k+1)-st
read: the read then rejects, the `catch` sees `aborted` set and stays
silent, and only a still-pending flush timer can fire afterwards. -/
def runStream (pl : LineProc) :
    PumpState → List String → ReadEnd → List Bool → Option Nat → List Cb
  | st, chunks, ending, sched, cancelAt =>
    if cancelAt = some 0 then finalFlush st
    else
      match maybeFlush st (sched.headD false) with
      | (st1, pre) =>
        match chunks with
        | [] =>
          match ending with
          | .eof => pre ++ [Cb.complete none] ++ finalFlush st1
          | .fail e => pre ++ [Cb.error e] ++ finalFlush st1
        | c :: cs =>
          match splitBufferLines st1.buffer c with
          | (lines, buf) =>
            match processLines pl { st1 with buffer := buf } lines with
            | (st2, cbs, true) => pre ++ cbs ++ finalFlush st2
            | (st2, cbs, false) =>
              pre ++ cbs ++ runStream pl st2 cs ending sched.tail (cancelDec cancelAt)

/-- Truncation of the read loop after at most `k` chunk reads (a proof
device: the callbacks already delivered, and the pump state reached, at the
moment a cancellation during the (k+1)-st read takes effect). -/
def pumpTrunc (pl : LineProc) :
    PumpState → List String → List Bool → Nat → PumpState × List Cb
  | st, _, _, 0 => (st, [])
  | st, [], _, _ + 1 => (st, [])
  | st, c :: cs, sched, k + 1 =>
    match maybeFlush st (sched.headD false) with
    | (st1, pre) =>
      match splitBufferLines st1.buffer c with
      | (lines, buf) =>
        match processLines pl { st1 with buffer := buf } lines with
        | (st2, cbs, true) => (st2, pre ++ cbs)
        | (st2, cbs, false) =>
          match pumpTrunc pl st2 cs sched.tail k with
          | (st3, tr) => (st3, pre ++ cbs ++ tr)

/-- Iterated line reassembly over a fragment sequence, as the read loop
performs it chunk by chunk: all complete lines emitted, in order, and the
final buffer. -/
def reassembleAll : String → List String → List String × String
  | buf, [] => ([], buf)
  | buf, f :: fs =>
    match splitBufferLines buf f with
    | (ls, b) =>
      match reassembleAll b fs with
      | (ls2, b2) => (ls ++ ls2, b2)

/-! ## The stream entry points -/

/-- An HTTP response, as the stream functions consume it: status, status
text, and the decoded texts of the successive body reads (`none` models a
`null` response body). -/
structure Response where
  status : Nat
  statusText : String
  body : Option (List String)

/-- `Response.ok` of the fetch API. -/
def Response.ok (r : Response) : Bool := 200 ≤ r.status && r.status ≤ 299

/-- `await response.json().catch(() => ({}))`: the parsed body text, or an
empty object when the body is absent or not valid JSON. -/
def respJson (r : Response) : Json :=
  match r.body with
  | some chunks => (jsonParse (stringConcat chunks)).getD (Json.objV [])
  | none => Json.objV []

/-- The message of the error thrown on a non-success status:
`errorData.detail || Error <status>: <statusText>`. -/
def httpErrorMsg (r : Response) : String :=
  let detail := (respJson r).getField "detail"
  if jsTruthy detail then jsToString (detail.getD Json.nullV)
  else "Error " ++ toString r.status ++ ": " ++ r.statusText

/-- `authenticatedFetch`, reduced to its observable effects for a request
whose transport yields `resp`: on status 401 it removes the stored token and
throws the session-expired error, otherwise it returns the response.  The
first component is the token storage after the call. -/
def authenticatedFetch (storage : Option String) (resp : Response) :
    Option String × Except String Response :=
  if resp.status = 401 then
    (none, Except.error "Sesión expirada. Por favor, inicia sesión nuevamente.")
  else (storage, Except.ok resp)

/-- Outcome of one stream invocation: the callback trace and the token
storage (`localStorage`) contents afterwards. -/
structure StreamOutcome where
  trace : List Cb
  storedToken : Option String

/-- `streamChat`: the authenticated streaming entry point.  `storage` is the
stored credential (`getToken()`), `resp` the transport's response, and
`ending`, `sched`, `cancelAt` drive the read loop as in `runStream`.  With no
stored token it invokes `onError` synchronously, before any network call
(hence independently of `resp`) and returns a no-op cancel handle (hence
independently of `cancelAt`). -/
def streamChat (storage : Option String) (resp : Response) (ending : ReadEnd)
    (sched : List Bool) (cancelAt : Option Nat) : StreamOutcome :=
  match storage with
  | none => ⟨[Cb.error "No autenticado. Por favor, inicia sesión."], none⟩
  | some _ =>
    match authenticatedFetch storage resp with
    | (storage1, Except.error e) => ⟨[Cb.error e], storage1⟩
    | (storage1, Except.ok r) =>
      if !r.ok then ⟨[Cb.error (httpErrorMsg r)], storage1⟩
      else
        match r.body with
        | none => ⟨[Cb.error "No se recibió respuesta del servidor"], storage1⟩
        | some chunks =>
          ⟨runStream processLineAuth initPump chunks ending sched cancelAt, storage1⟩

/-- `streamChatPublic`: the unauthenticated streaming entry point.  It uses a
raw `fetch` (no 401 interception, the stored token is never removed) and the
coalescing variant of the legacy token branch. -/
def streamChatPublic (storage : Option String) (resp : Response)
    (ending : ReadEnd) (sched : List Bool) (cancelAt : Option Nat) :
    StreamOutcome :=
  if !resp.ok then ⟨[Cb.error (httpErrorMsg resp)], storage⟩
  else
    match resp.body with
    | none => ⟨[Cb.error "No se recibió respuesta del servidor"], storage⟩
    | some chunks =>
      ⟨runStream processLinePublic initPump chunks ending sched cancelAt, storage⟩

/-! ## Concrete inputs named in the claims -/

/-- The named-event wire input of the dispatcher example (§8). -/
def c3Input : String :=
  "event: token\ndata: Hello\n\nevent: token\ndata:  world\n\nevent: done\ndata: \x7b\"conversation_id\": 42\x7d\n\n"

/-- The legacy bare-JSON wire input of the equivalence example (§8). -/
def c5LegacyInput : String :=
  "data: \x7b\"event\":\"token\",\"data\":\"Hi\"\x7d\n\ndata: \x7b\"event\":\"done\",\"data\":\x7b\x7d\x7d\n\n"

/-- The named-event form of the same content as `c5LegacyInput`. -/
def c5NamedInput : String :=
  "event: token\ndata: Hi\n\nevent: done\ndata: \x7b\x7d\n\n"

/-- A 500 response with a server-supplied error detail (§8). -/
def resp500 : Response :=
  ⟨500, "Internal Server Error", some ["\x7b\"detail\":\"server overloaded\"\x7d"]⟩

/-- A 401 response that also carries a server-supplied error detail. -/
def resp401 : Response :=
  ⟨401, "Unauthorized", some ["\x7b\"detail\":\"server overloaded\"\x7d"]⟩

/-! ## Helper lemmas on callback counting -/

lemma countP_terminal_flush (st : PumpState) :
    ((flush st).2).countP Cb.isTerminal = 0 := by
  unfold flush
  split <;> simp [Cb.isTerminal]

lemma countP_terminal_maybeFlush (st : PumpState) (b : Bool) :
    ((maybeFlush st b).2).countP Cb.isTerminal = 0 := by
  unfold maybeFlush
  split
  · exact countP_terminal_flush st
  · rfl

lemma countP_terminal_finalFlush (st : PumpState) :
    (finalFlush st).countP Cb.isTerminal = 0 := by
  unfold finalFlush
  split
  · exact countP_terminal_flush st
  · rfl

lemma finalFlush_tokens (st : PumpState) :
    (finalFlush st).length ≤ 1 ∧ ∀ e ∈ finalFlush st, ∃ s, e = Cb.token s := by
  unfold finalFlush flush
  split
  · split <;> simp
  · simp

/-- A line processor that invokes exactly one terminal callback when it
stops the stream, and none otherwise. -/
def TermOnce (pl : LineProc) : Prop :=
  ∀ st l st2 cbs stop, pl st l = (st2, cbs, stop) →
    cbs.countP Cb.isTerminal = if stop = true then 1 else 0

lemma handleDataAuth_termOnce (st : PumpState) (d : String)
    (st2 : PumpState) (cbs : List Cb) (stop : Bool)
    (hp : handleDataAuth st d = (st2, cbs, stop)) :
    cbs.countP Cb.isTerminal = if stop = true then 1 else 0 := by
  unfold handleDataAuth at hp
  repeat' split at hp
  all_goals (cases hp; rfl)

lemma handleDataPublic_termOnce (st : PumpState) (d : String)
    (st2 : PumpState) (cbs : List Cb) (stop : Bool)
    (hp : handleDataPublic st d = (st2, cbs, stop)) :
    cbs.countP Cb.isTerminal = if stop = true then 1 else 0 := by
  simp only [handleDataPublic] at hp
  repeat' split at hp
  all_goals (cases hp; rfl)

lemma processLineAuth_termOnce : TermOnce processLineAuth := by
  intro st l st2 cbs stop hp
  simp only [processLineAuth] at hp
  repeat' split at hp
  all_goals first
    | (cases hp; rfl)
    | exact handleDataAuth_termOnce _ _ _ _ _ hp

lemma processLinePublic_termOnce : TermOnce processLinePublic := by
  intro st l st2 cbs stop hp
  simp only [processLinePublic] at hp
  repeat' split at hp
  all_goals first
    | (cases hp; rfl)
    | exact handleDataPublic_termOnce _ _ _ _ _ hp

lemma processLines_termOnce {pl : LineProc} (h : TermOnce pl) :
    ∀ (lines : List String) (st st2 : PumpState) (cbs : List Cb) (stop : Bool),
      processLines pl st lines = (st2, cbs, stop) →
      cbs.countP Cb.isTerminal = if stop = true then 1 else 0 := by
  intro lines
  induction lines with
  | nil =>
    intro st st2 cbs stop hp
    simp only [processLines] at hp
    cases hp; rfl
  | cons l rest ih =>
    intro st st2 cbs stop hp
    rcases h1 : pl st l with ⟨stA, cbsA, stopA⟩
    have hA := h st l stA cbsA stopA h1
    cases stopA with
    | true =>
      simp only [processLines, h1] at hp
      cases hp
      simpa using hA
    | false =>
      rcases h2 : processLines pl stA rest with ⟨stB, cbsB, stopB⟩
      have hB := ih stA stB cbsB stopB h2
      simp only [processLines, h1, h2] at hp
      cases hp
      simp only [List.countP_append]
      have hA0 : List.countP Cb.isTerminal cbsA = 0 := by simpa using hA
      rw [hA0, hB]
      simp

lemma runStream_terminal_le {pl : LineProc} (h : TermOnce pl) :
    ∀ (chunks : List String) (st : PumpState) (ending : ReadEnd)
      (sched : List Bool) (cancelAt : Option Nat),
      (runStream pl st chunks ending sched cancelAt).countP Cb.isTerminal ≤ 1 := by
  intro chunks
  induction chunks with
  | nil =>
    intro st ending sched cancelAt
    by_cases hcan : cancelAt = some 0
    · rw [runStream, if_pos hcan]
      simp [countP_terminal_finalFlush]
    · rcases hm : maybeFlush st (sched.headD false) with ⟨st1, pre⟩
      have hpre : pre.countP Cb.isTerminal = 0 := by
        have := countP_terminal_maybeFlush st (sched.headD false)
        rw [hm] at this
        exact this
      rw [runStream, if_neg hcan]
      cases ending with
      | eof =>
        simp only [hm, List.countP_append, hpre, countP_terminal_finalFlush]
        simp [Cb.isTerminal]
      | fail e =>
        simp only [hm, List.countP_append, hpre, countP_terminal_finalFlush]
        simp [Cb.isTerminal]
  | cons c cs ih =>
    intro st ending sched cancelAt
    by_cases hcan : cancelAt = some 0
    · rw [runStream, if_pos hcan]
      simp [countP_terminal_finalFlush]
    · rcases hm : maybeFlush st (sched.headD false) with ⟨st1, pre⟩
      have hpre : pre.countP Cb.isTerminal = 0 := by
        have := countP_terminal_maybeFlush st (sched.headD false)
        rw [hm] at this
        exact this
      rcases hsp : splitBufferLines st1.buffer c with ⟨lines, buf⟩
      rcases hp : processLines pl { st1 with buffer := buf } lines with ⟨st2, cbs, stop⟩
      have hcbs := processLines_termOnce h lines { st1 with buffer := buf } st2 cbs stop hp
      rw [runStream, if_neg hcan]
      cases stop with
      | true =>
        have hcbs1 : cbs.countP Cb.isTerminal = 1 := by simpa using hcbs
        simp only [hm, hsp, hp, List.countP_append, hpre, countP_terminal_finalFlush]
        omega
      | false =>
        have hcbs0 : cbs.countP Cb.isTerminal = 0 := by simpa using hcbs
        have hrec := ih st2 ending sched.tail (cancelDec cancelAt)
        simp only [hm, hsp, hp, List.countP_append, hpre]
        omega

lemma runStream_terminal_eq {pl : LineProc} (h : TermOnce pl) :
    ∀ (chunks : List String) (st : PumpState) (ending : ReadEnd)
      (sched : List Bool),
      (runStream pl st chunks ending sched none).countP Cb.isTerminal = 1 := by
  intro chunks
  induction chunks with
  | nil =>
    intro st ending sched
    rcases hm : maybeFlush st (sched.headD false) with ⟨st1, pre⟩
    have hpre : pre.countP Cb.isTerminal = 0 := by
      have := countP_terminal_maybeFlush st (sched.headD false)
      rw [hm] at this
      exact this
    rw [runStream, if_neg (by decide)]
    cases ending with
    | eof =>
      simp only [hm, List.countP_append, hpre, countP_terminal_finalFlush]
      simp [Cb.isTerminal]
    | fail e =>
      simp only [hm, List.countP_append, hpre, countP_terminal_finalFlush]
      simp [Cb.isTerminal]
  | cons c cs ih =>
    intro st ending sched
    rcases hm : maybeFlush st (sched.headD false) with ⟨st1, pre⟩
    have hpre : pre.countP Cb.isTerminal = 0 := by
      have := countP_terminal_maybeFlush st (sched.headD false)
      rw [hm] at this
      exact this
    rcases hsp : splitBufferLines st1.buffer c with ⟨lines, buf⟩
    rcases hp : processLines pl { st1 with buffer := buf } lines with ⟨st2, cbs, stop⟩
    have hcbs := processLines_termOnce h lines { st1 with buffer := buf } st2 cbs stop hp
    rw [runStream, if_neg (by decide)]
    cases stop with
    | true =>
      have hcbs1 : cbs.countP Cb.isTerminal = 1 := by simpa using hcbs
      simp only [hm, hsp, hp, List.countP_append, hpre, countP_terminal_finalFlush]
      omega
    | false =>
      have hcbs0 : cbs.countP Cb.isTerminal = 0 := by simpa using hcbs
      have hrec := ih st2 ending sched.tail
      simp only [hm, hsp, hp, cancelDec, List.countP_append, hpre]
      omega

lemma cb_error_terminal : ∀ e : Cb, e.isError = true → e.isTerminal = true := by
  intro e
  cases e <;> simp [Cb.isError, Cb.isTerminal]

lemma cb_complete_terminal : ∀ e : Cb, e.isComplete = true → e.isTerminal = true := by
  intro e
  cases e <;> simp [Cb.isComplete, Cb.isTerminal]

/-- Closed form of `streamChat` by response case (proof device). -/
lemma streamChat_cases (t : String) (resp : Response) (ending : ReadEnd)
    (sched : List Bool) (cancelAt : Option Nat) :
    streamChat (some t) resp ending sched cancelAt =
      if resp.status = 401 then
        ⟨[Cb.error "Sesión expirada. Por favor, inicia sesión nuevamente."], none⟩
      else if resp.ok = false then ⟨[Cb.error (httpErrorMsg resp)], some t⟩
      else
        match resp.body with
        | none => ⟨[Cb.error "No se recibió respuesta del servidor"], some t⟩
        | some chunks =>
          ⟨runStream processLineAuth initPump chunks ending sched cancelAt, some t⟩ := by
  unfold streamChat authenticatedFetch
  by_cases h401 : resp.status = 401
  · simp [h401]
  · cases hok : resp.ok <;> simp [h401, hok]

/-- Closed form of `streamChatPublic` by response case (proof device). -/
lemma streamChatPublic_cases (storage : Option String) (resp : Response)
    (ending : ReadEnd) (sched : List Bool) (cancelAt : Option Nat) :
    streamChatPublic storage resp ending sched cancelAt =
      if resp.ok = false then ⟨[Cb.error (httpErrorMsg resp)], storage⟩
      else
        match resp.body with
        | none => ⟨[Cb.error "No se recibió respuesta del servidor"], storage⟩
        | some chunks =>
          ⟨runStream processLinePublic initPump chunks ending sched cancelAt, storage⟩ := by
  unfold streamChatPublic
  cases hok : resp.ok <;> simp [hok]

lemma streamChat_terminal_le (storage : Option String) (resp : Response)
    (ending : ReadEnd) (sched : List Bool) (cancelAt : Option Nat) :
    ((streamChat storage resp ending sched cancelAt).trace).countP Cb.isTerminal ≤ 1 := by
  cases storage with
  | none => simp [streamChat, Cb.isTerminal]
  | some t =>
    rw [streamChat_cases]
    by_cases h401 : resp.status = 401
    · simp [h401, Cb.isTerminal]
    · rw [if_neg h401]
      by_cases hok : resp.ok = false
      · simp [hok, Cb.isTerminal]
      · rw [if_neg hok]
        rcases hb : resp.body with _ | chunks
        · simp [hb, Cb.isTerminal]
        · simp only [hb]
          exact runStream_terminal_le processLineAuth_termOnce _ _ _ _ _

lemma streamChat_terminal_eq (storage : Option String) (resp : Response)
    (ending : ReadEnd) (sched : List Bool) :
    ((streamChat storage resp ending sched none).trace).countP Cb.isTerminal = 1 := by
  cases storage with
  | none => simp [streamChat, Cb.isTerminal]
  | some t =>
    rw [streamChat_cases]
    by_cases h401 : resp.status = 401
    · simp [h401, Cb.isTerminal]
    · rw [if_neg h401]
      by_cases hok : resp.ok = false
      · simp [hok, Cb.isTerminal]
      · rw [if_neg hok]
        rcases hb : resp.body with _ | chunks
        · simp [hb, Cb.isTerminal]
        · simp only [hb]
          exact runStream_terminal_eq processLineAuth_termOnce _ _ _ _

lemma streamChatPublic_terminal_le (storage : Option String) (resp : Response)
    (ending : ReadEnd) (sched : List Bool) (cancelAt : Option Nat) :
    ((streamChatPublic storage resp ending sched cancelAt).trace).countP Cb.isTerminal ≤ 1 := by
  rw [streamChatPublic_cases]
  by_cases hok : resp.ok = false
  · simp [hok, Cb.isTerminal]
  · rw [if_neg hok]
    rcases hb : resp.body with _ | chunks
    · simp [hb, Cb.isTerminal]
    · simp only [hb]
      exact runStream_terminal_le processLinePublic_termOnce _ _ _ _ _

lemma streamChatPublic_terminal_eq (storage : Option String) (resp : Response)
    (ending : ReadEnd) (sched : List Bool) :
    ((streamChatPublic storage resp ending sched none).trace).countP Cb.isTerminal = 1 := by
  rw [streamChatPublic_cases]
  by_cases hok : resp.ok = false
  · simp [hok, Cb.isTerminal]
  · rw [if_neg hok]
    rcases hb : resp.body with _ | chunks
    · simp [hb, Cb.isTerminal]
    · simp only [hb]
      exact runStream_terminal_eq processLinePublic_termOnce _ _ _ _

/-- C1: for every stream started with `streamChat` (or `streamChatPublic`) —
over every stored credential, transport response, read ending, flush schedule
and cancellation behaviour — `onError` is invoked at most once, `onComplete`
is invoked at most once, at most one terminal callback fires in total, and
when the caller never cancels exactly one terminal callback fires
(`onToken`, not being terminal, is unconstrained). -/
theorem terminal_callback_discipline :
    ∀ (storage : Option String) (resp : Response) (ending : ReadEnd)
      (sched : List Bool) (cancelAt : Option Nat),
      ((streamChat storage resp ending sched cancelAt).trace).countP Cb.isError ≤ 1
      ∧ ((streamChat storage resp ending sched cancelAt).trace).countP Cb.isComplete ≤ 1
      ∧ ((streamChat storage resp ending sched cancelAt).trace).countP Cb.isTerminal ≤ 1
      ∧ ((streamChat storage resp ending sched none).trace).countP Cb.isTerminal = 1
      ∧ ((streamChatPublic storage resp ending sched cancelAt).trace).countP Cb.isError ≤ 1
      ∧ ((streamChatPublic storage resp ending sched cancelAt).trace).countP Cb.isComplete ≤ 1
      ∧ ((streamChatPublic storage resp ending sched cancelAt).trace).countP Cb.isTerminal ≤ 1
      ∧ ((streamChatPublic storage resp ending sched none).trace).countP Cb.isTerminal = 1 := by
  intro storage resp ending sched cancelAt
  have hA := streamChat_terminal_le storage resp ending sched cancelAt
  have hP := streamChatPublic_terminal_le storage resp ending sched cancelAt
  refine ⟨?_, ?_, hA, streamChat_terminal_eq storage resp ending sched,
          ?_, ?_, hP, streamChatPublic_terminal_eq storage resp ending sched⟩
  · exact le_trans (List.countP_mono_left (fun e _ => cb_error_terminal e)) hA
  · exact le_trans (List.countP_mono_left (fun e _ => cb_complete_terminal e)) hA
  · exact le_trans (List.countP_mono_left (fun e _ => cb_error_terminal e)) hP
  · exact le_trans (List.countP_mono_left (fun e _ => cb_complete_terminal e)) hP

lemma runStream_cancel_decomp (pl : LineProc) :
    ∀ (chunks : List String) (st : PumpState) (ending : ReadEnd)
      (sched : List Bool) (k : Nat), k ≤ chunks.length →
      runStream pl st chunks ending sched (some k) =
        (pumpTrunc pl st chunks sched k).2 ++
          finalFlush (pumpTrunc pl st chunks sched k).1 := by
  intro chunks
  induction chunks with
  | nil =>
    intro st ending sched k hk
    have hk0 : k = 0 := Nat.le_zero.mp (by simpa using hk)
    subst hk0
    rw [runStream, if_pos rfl]
    simp [pumpTrunc]
  | cons c cs ih =>
    intro st ending sched k hk
    cases k with
    | zero =>
      rw [runStream, if_pos rfl]
      simp [pumpTrunc]
    | succ k =>
      rw [runStream, if_neg (by simp)]
      rcases hm : maybeFlush st (sched.headD false) with ⟨st1, pre⟩
      rcases hsp : splitBufferLines st1.buffer c with ⟨lines, buf⟩
      rcases hp : processLines pl { st1 with buffer := buf } lines with ⟨st2, cbs, stop⟩
      cases stop with
      | true =>
        simp only [pumpTrunc, hm, hsp, hp, List.append_assoc]
      | false =>
        have hrec := ih st2 ending sched.tail k (Nat.le_of_succ_le_succ hk)
        simp only [hm, hsp, hp, pumpTrunc, cancelDec, Nat.add_sub_cancel]
        rw [hrec]
        rcases pumpTrunc pl st2 cs sched.tail k with ⟨st3, tr⟩
        simp

/-- C2: cancellation invoked mid-stream (during the (k+1)-st read, with at
most the available reads) silences the stream: the whole trace is exactly
the callbacks delivered before the cancellation (`pumpTrunc`) followed by a
suffix that contains no `onError` and no `onComplete` and consists of at
most one `onToken` call — the one already-scheduled coalescing flush allowed
as a benign race.  Stated for every line processor, hence for both
`streamChat` and `streamChatPublic` pumps. -/
theorem cancellation_is_silent :
    ∀ (pl : LineProc) (chunks : List String) (ending : ReadEnd)
      (sched : List Bool) (k : Nat), k ≤ chunks.length →
      runStream pl initPump chunks ending sched (some k) =
        (pumpTrunc pl initPump chunks sched k).2 ++
          finalFlush (pumpTrunc pl initPump chunks sched k).1
      ∧ (finalFlush (pumpTrunc pl initPump chunks sched k).1).length ≤ 1
      ∧ ∀ e ∈ finalFlush (pumpTrunc pl initPump chunks sched k).1,
          ∃ s, e = Cb.token s := by
  intro pl chunks ending sched k hk
  refine ⟨runStream_cancel_decomp pl chunks initPump ending sched k hk, ?_, ?_⟩
  · exact (finalFlush_tokens _).1
  · exact (finalFlush_tokens _).2

/-- Witness for C2 at a concrete stream: one chunk carrying one coalesced
token, cancelled during the second read. -/
theorem cancellation_is_silent_witness :
    (1 ≤ (["event: token\ndata: Hi\n\n"] : List String).length)
    ∧ (runStream processLineAuth initPump ["event: token\ndata: Hi\n\n"]
          ReadEnd.eof [] (some 1) =
        (pumpTrunc processLineAuth initPump ["event: token\ndata: Hi\n\n"] [] 1).2 ++
          finalFlush (pumpTrunc processLineAuth initPump ["event: token\ndata: Hi\n\n"] [] 1).1
        ∧ (finalFlush (pumpTrunc processLineAuth initPump ["event: token\ndata: Hi\n\n"] [] 1).1).length ≤ 1
        ∧ ∀ e ∈ finalFlush (pumpTrunc processLineAuth initPump ["event: token\ndata: Hi\n\n"] [] 1).1,
            ∃ s, e = Cb.token s) :=
  ⟨by decide,
   cancellation_is_silent processLineAuth ["event: token\ndata: Hi\n\n"]
     ReadEnd.eof [] 1 (by decide)⟩

/-- C3 counterexample: on the claim's exact wire input the token callbacks
of both dispatchers concatenate to `"Helloworld"`, not `"Hello world"`: the
`data:` handler trims each payload (`trimmedLine.slice(6).trim()`), dropping
the leading space of `" world"`. -/
theorem dispatcher_example_counterexample :
    tokenConcat (runStream processLineAuth initPump [c3Input] ReadEnd.eof [] none)
      = "Helloworld"
    ∧ tokenConcat (runStream processLinePublic initPump [c3Input] ReadEnd.eof [] none)
      = "Helloworld"
    ∧ ¬ tokenConcat (runStream processLineAuth initPump [c3Input] ReadEnd.eof [] none)
      = "Hello world"
    ∧ ¬ tokenConcat (runStream processLinePublic initPump [c3Input] ReadEnd.eof [] none)
      = "Hello world" := by
  refine ⟨rfl, rfl, ?_, ?_⟩ <;> decide

/-- C3 amended: on the claim's wire input both dispatchers produce token
callbacks whose concatenation equals `"Helloworld"` (the data-line trim
removes the leading space of the second token) and a single completion
callback with conversation id 42; the full trace is the completion followed
by the one coalesced token flush. -/
theorem dispatcher_example_amended :
    runStream processLineAuth initPump [c3Input] ReadEnd.eof [] none =
      [Cb.complete (some (Json.numV 42)), Cb.token "Helloworld"]
    ∧ runStream processLinePublic initPump [c3Input] ReadEnd.eof [] none =
      [Cb.complete (some (Json.numV 42)), Cb.token "Helloworld"]
    ∧ (runStream processLineAuth initPump [c3Input] ReadEnd.eof [] none).filter
        Cb.isComplete = [Cb.complete (some (Json.numV 42))]
    ∧ (runStream processLinePublic initPump [c3Input] ReadEnd.eof [] none).filter
        Cb.isComplete = [Cb.complete (some (Json.numV 42))] :=
  ⟨rfl, rfl, rfl, rfl⟩

/-- C5: the legacy bare-JSON form behaves equivalently to the named-event
form of the same content: the same token text is delivered (`"Hi"`) and both
streams end with `onComplete` carrying `conversationId === undefined` as
their unique terminal callback.  For the public variant the two traces are
identical; for the authenticated variant the legacy token is delivered
directly (before the completion) while the named form delivers it through
the coalesced flush (after the completion) — an ordering difference internal
to the flush-versus-completion race §9 documents. -/
theorem legacy_equivalent_to_named :
    tokenConcat (runStream processLineAuth initPump [c5LegacyInput] ReadEnd.eof [] none)
      = tokenConcat (runStream processLineAuth initPump [c5NamedInput] ReadEnd.eof [] none)
    ∧ (runStream processLineAuth initPump [c5LegacyInput] ReadEnd.eof [] none).filter
        Cb.isTerminal = [Cb.complete none]
    ∧ (runStream processLineAuth initPump [c5NamedInput] ReadEnd.eof [] none).filter
        Cb.isTerminal = [Cb.complete none]
    ∧ runStream processLinePublic initPump [c5LegacyInput] ReadEnd.eof [] none
      = runStream processLinePublic initPump [c5NamedInput] ReadEnd.eof [] none
    ∧ (runStream processLinePublic initPump [c5LegacyInput] ReadEnd.eof [] none).filter
        Cb.isTerminal = [Cb.complete none] :=
  ⟨rfl, rfl, rfl, rfl, rfl⟩

/-! ## Line reassembly correctness (C4) -/

lemma linesAndRest_of_no_nl : ∀ cs : List Char, '\n' ∉ cs →
    linesAndRest cs = ([], cs) := by
  intro cs
  induction cs with
  | nil => intro _; rfl
  | cons c cs ih =>
    intro h
    have hc : c ≠ '\n' := by
      rintro rfl
      exact h (List.mem_cons_self _ _)
    have hcs : '\n' ∉ cs := fun m => h (List.mem_cons_of_mem _ m)
    simp [linesAndRest, ih hcs, hc]

lemma nl_not_mem_rest : ∀ cs : List Char, '\n' ∉ (linesAndRest cs).2 := by
  intro cs
  induction cs with
  | nil => simp [linesAndRest]
  | cons c cs ih =>
    by_cases hc : c = '\n'
    · subst hc
      simpa [linesAndRest] using ih
    · rcases hl : linesAndRest cs with ⟨L, R⟩
      rw [hl] at ih
      cases L with
      | nil =>
        simp only [linesAndRest, hl]
        simp only at ih
        simp [hc, ih]
        exact fun e => hc e.symm
      | cons l ls =>
        simpa [linesAndRest, hc, hl] using ih

lemma splitNl_eq : ∀ cs : List Char,
    splitNl cs = (linesAndRest cs).1 ++ [(linesAndRest cs).2] := by
  intro cs
  induction cs with
  | nil => rfl
  | cons c cs ih =>
    by_cases hc : c = '\n'
    · subst hc
      simp [splitNl, linesAndRest, ih]
    · rcases hl : linesAndRest cs with ⟨L, R⟩
      rw [hl] at ih
      cases L with
      | nil => simp [splitNl, linesAndRest, hc, ih, hl]
      | cons l ls => simp [splitNl, linesAndRest, hc, ih, hl]

lemma linesAndRest_append :
    ∀ a b : List Char,
      linesAndRest (a ++ b) =
        ((linesAndRest a).1 ++ (linesAndRest ((linesAndRest a).2 ++ b)).1,
          (linesAndRest ((linesAndRest a).2 ++ b)).2) := by
  intro a
  induction a with
  | nil => intro b; simp [linesAndRest]
  | cons c a ih =>
    intro b
    rcases hA : linesAndRest a with ⟨A1, A2⟩
    have ihb := ih b
    rw [hA] at ihb
    simp only at ihb
    by_cases hc : c = '\n'
    · subst hc
      simp [linesAndRest, ihb, hA, List.append_eq, List.cons_append]
    · cases A1 with
      | nil =>
        rcases hB : linesAndRest (A2 ++ b) with ⟨B1, B2⟩
        rw [hB] at ihb
        simp only [List.nil_append] at ihb
        cases B1 with
        | nil => simp [linesAndRest, ihb, hA, hB, hc, List.append_eq]
        | cons bl bls => simp [linesAndRest, ihb, hA, hB, hc, List.append_eq]
      | cons l ls =>
        rcases hB : linesAndRest (A2 ++ b) with ⟨B1, B2⟩
        rw [hB] at ihb
        simp only at ihb
        simp [linesAndRest, ihb, hA, hB, hc, List.append_eq, List.cons_append]

lemma splitBufferLines_eq (buf c : String) :
    splitBufferLines buf c =
      (((linesAndRest (buf.data ++ c.data)).1).map String.mk,
        String.mk (linesAndRest (buf.data ++ c.data)).2) := by
  unfold splitBufferLines jsSplitNl
  rw [String.data_append, splitNl_eq]
  rcases linesAndRest (buf.data ++ c.data) with ⟨L, R⟩
  simp [List.getLastD_concat]

lemma reassembleAll_eq :
    ∀ (frags : List String) (buf : String), '\n' ∉ buf.data →
      reassembleAll buf frags =
        (((linesAndRest (buf.data ++ (stringConcat frags).data)).1).map String.mk,
          String.mk (linesAndRest (buf.data ++ (stringConcat frags).data)).2) := by
  intro frags
  induction frags with
  | nil =>
    intro buf hb
    have h1 : linesAndRest (buf.data ++ (stringConcat []).data) = ([], buf.data) := by
      have he : (stringConcat []).data = ([] : List Char) := rfl
      rw [he, List.append_nil]
      exact linesAndRest_of_no_nl buf.data hb
    simp [reassembleAll, h1]
  | cons f fs ih =>
    intro buf hb
    rcases hlr : linesAndRest (buf.data ++ f.data) with ⟨L1, R1⟩
    have hspe := splitBufferLines_eq buf f
    rw [hlr] at hspe
    have hbno : '\n' ∉ (String.mk R1).data := by
      have h2 := nl_not_mem_rest (buf.data ++ f.data)
      rw [hlr] at h2
      simpa using h2
    have ihh := ih (String.mk R1) hbno
    rw [show stringConcat (f :: fs) = f ++ stringConcat fs from rfl,
        String.data_append, ← List.append_assoc, linesAndRest_append, hlr]
    simp only at ihh ⊢
    simp [reassembleAll, hspe, ihh]

/-- C4: for any text split arbitrarily into decoded fragments, iterating the
pump's line-reassembly step (`buffer += chunk; lines = buffer.split('\n');
buffer = lines.pop() || ''`) from the initial empty buffer emits exactly the
complete (newline-terminated) lines of the concatenation, in order, with no
loss and no duplication, and retains exactly the piece after the last
newline as the final buffer (`linesAndRest` computes both directly on the
whole concatenation). -/
theorem line_reassembler_exact :
    ∀ frags : List String,
      reassembleAll "" frags =
        (((linesAndRest (stringConcat frags).data).1).map String.mk,
          String.mk (linesAndRest (stringConcat frags).data).2) := by
  intro frags
  have h := reassembleAll_eq frags "" (by decide)
  have he : ("" : String).data = [] := rfl
  rw [he, List.nil_append] at h
  exact h

/-- C6: `done`-payload handling is lenient.  (a) When the payload parses as
JSON, both dispatchers complete the stream with the payload's
`conversation_id` field and stop; (b) when the payload is malformed
(unparsable) JSON they still complete — with no conversation id — and never
invoke `onError`; (c) end-of-data without a `done` event also completes with
no conversation id. -/
theorem done_event_completion :
    (∀ (st : PumpState) (d : String) (j : Json),
        st.currentEvent = some "done" → jsonParse d = some j →
          handleDataAuth st d = (st, [Cb.complete (j.getField "conversation_id")], true)
          ∧ handleDataPublic st d = (st, [Cb.complete (j.getField "conversation_id")], true))
    ∧ (∀ (st : PumpState) (d : String),
        st.currentEvent = some "done" → jsonParse d = none →
          handleDataAuth st d = (st, [Cb.complete none], true)
          ∧ handleDataPublic st d = (st, [Cb.complete none], true))
    ∧ (∀ (pl : LineProc) (st : PumpState) (sched : List Bool),
        runStream pl st [] ReadEnd.eof sched none =
          (maybeFlush st (sched.headD false)).2 ++ [Cb.complete none] ++
            finalFlush (maybeFlush st (sched.headD false)).1) := by
  refine ⟨?_, ?_, ?_⟩
  · intro st d j hev hj
    constructor
    · unfold handleDataAuth
      rw [hev, if_neg (by decide), if_pos rfl, hj]
    · unfold handleDataPublic
      rw [hev, if_neg (by decide), if_pos rfl, hj]
  · intro st d hev hj
    constructor
    · unfold handleDataAuth
      rw [hev, if_neg (by decide), if_pos rfl, hj]
    · unfold handleDataPublic
      rw [hev, if_neg (by decide), if_pos rfl, hj]
  · intro pl st sched
    rw [runStream, if_neg (by decide)]

/-- Witness for C6 at concrete payloads: a parsable `done` payload with
`conversation_id` 7 and a malformed one. -/
theorem done_event_completion_witness :
    ((⟨"", some "done", "", false⟩ : PumpState).currentEvent = some "done"
     ∧ jsonParse "\x7b\"conversation_id\": 7\x7d"
        = some (Json.objV [("conversation_id", Json.numV 7)])
     ∧ handleDataAuth ⟨"", some "done", "", false⟩ "\x7b\"conversation_id\": 7\x7d"
        = (⟨"", some "done", "", false⟩,
           [Cb.complete ((Json.objV [("conversation_id", Json.numV 7)]).getField
              "conversation_id")], true))
    ∧ (jsonParse "not json" = none
       ∧ handleDataAuth ⟨"", some "done", "", false⟩ "not json"
          = (⟨"", some "done", "", false⟩, [Cb.complete none], true)) := by
  refine ⟨⟨rfl, rfl, ?_⟩, rfl, ?_⟩
  · exact (done_event_completion.1 ⟨"", some "done", "", false⟩
      "\x7b\"conversation_id\": 7\x7d"
      (Json.objV [("conversation_id", Json.numV 7)]) rfl rfl).1
  · exact (done_event_completion.2.1 ⟨"", some "done", "", false⟩
      "not json" rfl rfl).1

/-- C7 counterexample: a non-success response (status 401) whose body carries
the server detail `"server overloaded"` does not surface that detail from
`streamChat`: `authenticatedFetch` intercepts 401 before the
detail-preferring branch and throws the fixed session-expired message. -/
theorem http_error_detail_counterexample :
    (streamChat (some "tok") resp401 ReadEnd.eof [] none).trace
      = [Cb.error "Sesión expirada. Por favor, inicia sesión nuevamente."]
    ∧ resp401.status = 401
    ∧ Response.ok resp401 = false
    ∧ (respJson resp401).getField "detail" = some (Json.strV "server overloaded")
    ∧ "Sesión expirada. Por favor, inicia sesión nuevamente." ≠ "server overloaded" :=
  ⟨rfl, rfl, rfl, rfl, by decide⟩

/-- C7 amended: for every non-success status other than 401, `streamChat`
invokes `onError` exactly once with the message that prefers the
server-supplied `detail` and falls back to `"Error <status>: <statusText>"`;
at 401 it instead errors once with the fixed session-expired message.
`streamChatPublic` applies the detail/fallback rule at every non-success
status.  An absent body on a success status errors once with the fixed
no-response message.  The claim's concrete example holds: status 500 with
body `{"detail":"server overloaded"}` yields `onError` "server overloaded". -/
theorem http_error_reporting :
    (∀ (t : String) (resp : Response) (ending : ReadEnd) (sched : List Bool),
        resp.status ≠ 401 → Response.ok resp = false →
          (streamChat (some t) resp ending sched none).trace
            = [Cb.error (httpErrorMsg resp)])
    ∧ (∀ (t : String) (resp : Response) (ending : ReadEnd) (sched : List Bool),
        resp.status = 401 →
          (streamChat (some t) resp ending sched none).trace
            = [Cb.error "Sesión expirada. Por favor, inicia sesión nuevamente."])
    ∧ (∀ (storage : Option String) (resp : Response) (ending : ReadEnd)
        (sched : List Bool), Response.ok resp = false →
          (streamChatPublic storage resp ending sched none).trace
            = [Cb.error (httpErrorMsg resp)])
    ∧ (∀ (t : String) (resp : Response) (ending : ReadEnd) (sched : List Bool),
        Response.ok resp = true → resp.body = none →
          (streamChat (some t) resp ending sched none).trace
            = [Cb.error "No se recibió respuesta del servidor"])
    ∧ (∀ r : Response, jsTruthy ((respJson r).getField "detail") = true →
        httpErrorMsg r = jsToString (((respJson r).getField "detail").getD Json.nullV))
    ∧ (∀ r : Response, jsTruthy ((respJson r).getField "detail") = false →
        httpErrorMsg r = "Error " ++ toString r.status ++ ": " ++ r.statusText)
    ∧ (streamChat (some "tok") resp500 ReadEnd.eof [] none).trace
        = [Cb.error "server overloaded"] := by
  refine ⟨?_, ?_, ?_, ?_, ?_, ?_, rfl⟩
  · intro t resp ending sched h401 hok
    rw [streamChat_cases, if_neg h401, if_pos hok]
  · intro t resp ending sched h401
    rw [streamChat_cases, if_pos h401]
  · intro storage resp ending sched hok
    rw [streamChatPublic_cases, if_pos hok]
  · intro t resp ending sched hok hb
    have h401 : resp.status ≠ 401 := by
      unfold Response.ok at hok
      simp at hok
      omega
    rw [streamChat_cases, if_neg h401, if_neg (by simp [hok])]
    simp only [hb]
  · intro r h
    unfold httpErrorMsg
    rw [if_pos h]
  · intro r h
    unfold httpErrorMsg
    rw [if_neg (by simp [h])]

/-- Witness for C7 amended at concrete responses: the 500-with-detail
response, the 401 response, and a success response with absent body. -/
theorem http_error_reporting_witness :
    (resp500.status ≠ 401 ∧ Response.ok resp500 = false
      ∧ (streamChat (some "tok") resp500 ReadEnd.eof [] none).trace
          = [Cb.error (httpErrorMsg resp500)])
    ∧ (resp401.status = 401
      ∧ (streamChat (some "tok") resp401 ReadEnd.eof [] none).trace
          = [Cb.error "Sesión expirada. Por favor, inicia sesión nuevamente."])
    ∧ (Response.ok ⟨200, "OK", none⟩ = true
      ∧ (⟨200, "OK", none⟩ : Response).body = none
      ∧ (streamChat (some "tok") ⟨200, "OK", none⟩ ReadEnd.eof [] none).trace
          = [Cb.error "No se recibió respuesta del servidor"]) :=
  ⟨⟨by decide, rfl,
      http_error_reporting.1 "tok" resp500 ReadEnd.eof [] (by decide) rfl⟩,
   ⟨rfl, http_error_reporting.2.1 "tok" resp401 ReadEnd.eof [] rfl⟩,
   ⟨rfl, rfl,
      http_error_reporting.2.2.2.1 "tok" ⟨200, "OK", none⟩ ReadEnd.eof [] rfl rfl⟩⟩

/-- C8: with no stored credential, `streamChat` fails with the auth error
before any network call: the outcome is the single synchronous `onError`,
identical for every transport response (the response never matters), every
read ending and flush schedule, and every cancellation behaviour (the
returned cancel handle is the no-op `() => {}`); storage stays empty. -/
theorem missing_credential_synchronous_error :
    ∀ (resp : Response) (ending : ReadEnd) (sched : List Bool)
      (cancelAt : Option Nat),
      streamChat none resp ending sched cancelAt =
        ⟨[Cb.error "No autenticado. Por favor, inicia sesión."], none⟩ :=
  fun _ _ _ _ => rfl

/-- C9: a legacy bare-JSON token event — a `data:` payload parsing as JSON
with `event === "token"` and a truthy `data` field — is dispatched
differently by the two variants: `streamChat` invokes `onToken` immediately
and synchronously with the `data` field, one call per event, leaving the
coalescing state untouched; `streamChatPublic` invokes nothing immediately,
appending the same text to the coalescing buffer and scheduling a flush. -/
theorem legacy_token_dispatch_difference :
    ∀ (st : PumpState) (d : String) (j v : Json),
      st.currentEvent ≠ some "token" → st.currentEvent ≠ some "done" →
      jsonParse d = some j →
      j.getField "event" = some (Json.strV "token") →
      j.getField "data" = some v → jsTruthy (some v) = true →
      handleDataAuth st d = (st, [Cb.token (jsToString v)], false)
      ∧ handleDataPublic st d =
          ({ st with visualBuffer := st.visualBuffer ++ jsToString v,
                     flushScheduled := true }, [], false) := by
  intro st d j v h1 h2 hj hev hdata htr
  constructor
  · simp [handleDataAuth, h1, h2, hj, hev, hdata, htr, jsIsStr]
  · simp [handleDataPublic, h1, h2, hj, hev, hdata, htr, jsIsStr]

/-- Witness for C9 at the concrete legacy payload
`{"event":"token","data":"Hi"}` from the initial pump state. -/
theorem legacy_token_dispatch_difference_witness :
    handleDataAuth initPump "\x7b\"event\":\"token\",\"data\":\"Hi\"\x7d"
      = (initPump, [Cb.token (jsToString (Json.strV "Hi"))], false)
    ∧ handleDataPublic initPump "\x7b\"event\":\"token\",\"data\":\"Hi\"\x7d"
      = ({ initPump with
            visualBuffer := initPump.visualBuffer ++ jsToString (Json.strV "Hi"),
            flushScheduled := true }, [], false) :=
  legacy_token_dispatch_difference initPump
    "\x7b\"event\":\"token\",\"data\":\"Hi\"\x7d"
    (Json.objV [("event", Json.strV "token"), ("data", Json.strV "Hi")])
    (Json.strV "Hi") (by decide) (by decide) rfl rfl rfl rfl

/-- C10: a 401 response to the authenticated `streamChat` removes the stored
bearer token from storage as a side effect and errors with the
session-expired message; `streamChatPublic` never removes the stored token,
whatever the response status, ending, schedule or cancellation. -/
theorem unauthorized_removes_token :
    (∀ (t : String) (resp : Response) (ending : ReadEnd) (sched : List Bool)
        (cancelAt : Option Nat), resp.status = 401 →
        (streamChat (some t) resp ending sched cancelAt).storedToken = none
        ∧ (streamChat (some t) resp ending sched cancelAt).trace
            = [Cb.error "Sesión expirada. Por favor, inicia sesión nuevamente."])
    ∧ (∀ (storage : Option String) (resp : Response) (ending : ReadEnd)
        (sched : List Bool) (cancelAt : Option Nat),
        (streamChatPublic storage resp ending sched cancelAt).storedToken
          = storage) := by
  constructor
  · intro t resp ending sched cancelAt h401
    rw [streamChat_cases, if_pos h401]
    exact ⟨rfl, rfl⟩
  · intro storage resp ending sched cancelAt
    rw [streamChatPublic_cases]
    by_cases hok : resp.ok = false
    · rw [if_pos hok]
    · rw [if_neg hok]
      rcases hb : resp.body with _ | chunks <;> simp only [hb]

/-- Witness for C10 at the concrete 401 response. -/
theorem unauthorized_removes_token_witness :
    resp401.status = 401
    ∧ (streamChat (some "tok") resp401 ReadEnd.eof [] none).storedToken = none
    ∧ (streamChat (some "tok") resp401 ReadEnd.eof [] none).trace
        = [Cb.error "Sesión expirada. Por favor, inicia sesión nuevamente."] :=
  ⟨rfl, (unauthorized_removes_token.1 "tok" resp401 ReadEnd.eof [] none rfl).1,
        (unauthorized_removes_token.1 "tok" resp401 ReadEnd.eof [] none rfl).2⟩

end SmartCityFront
